import Mathlib

/-!
Shallow embedding of the contact-directory screen
(src/app/(tabs)/index.tsx, with the overlapping logic of src/app.js).

The component state, the local key-value store (AsyncStorage) and the
handlers (loadData, toggleFavorite, clearAllFavorites, addUser,
getFilteredUsers) are translated directly from the source.  Asynchronous
I/O outcomes (GET/POST results, storage write success) are passed in as
explicit parameters; each handler additionally returns the list of
observable effects it performs, in program order.
-/

/-- A user record as returned by the remote directory service. -/
structure User where
  id : Int
  name : String
  email : String
deriving DecidableEq, Repr

/-- The in-memory component state of the screen (the six useState cells). -/
structure AppState where
  users : List User
  favorites : List Int
  isLoading : Bool
  showOnlyFavorites : Bool
  newUserName : String
  newUserEmail : String
deriving DecidableEq, Repr

/-- The local key-value store (AsyncStorage), as an association list from
keys to stored strings; lookup takes the most recent binding. -/
structure Storage where
  entries : List (String × String)
deriving DecidableEq, Repr

def Storage.getItem (s : Storage) (k : String) : Option String :=
  (s.entries.find? (fun e => e.1 == k)).map (fun e => e.2)

def Storage.setItem (s : Storage) (k v : String) : Storage :=
  ⟨(k, v) :: s.entries⟩

def Storage.removeItem (s : Storage) (k : String) : Storage :=
  ⟨s.entries.filter (fun e => !(e.1 == k))⟩

/-- Clé pour le stockage local. -/
def FAVORITES_KEY : String := "@my_favorites_ids"

def usersUrl : String := "https://jsonplaceholder.typicode.com/users"

/-- Decimal digits of a natural number, most significant first: the
rendering JSON.stringify uses for a nonnegative integer. -/
def natChars (n : Nat) : List Char :=
  if _h : n < 10 then [Nat.digitChar n]
  else natChars (n / 10) ++ [Nat.digitChar (n % 10)]
termination_by n
decreasing_by
exact Nat.div_lt_self (by omega) (by omega)

/-- Rendering of one (possibly negative) integer. -/
def intChars (n : Int) : List Char :=
  if n < 0 then '-' :: natChars n.natAbs else natChars n.toNat

def intercalateComma : List (List Char) → List Char
  | [] => []
  | [g] => g
  | g :: gs => g ++ ',' :: intercalateComma gs

/-- JSON.stringify of a list of integers, e.g. "[1,2]". -/
def stringifyIntList (l : List Int) : String :=
  String.mk ('[' :: (intercalateComma (l.map intChars) ++ [']']))

def parseNatWhole (ds : List Char) : Option Nat :=
  if ds ≠ [] ∧ (ds.all fun c => c.isDigit) = true then
    some (ds.foldl (fun a c => 10 * a + (c.toNat - 48)) 0)
  else none

def parseIntWhole (g : List Char) : Option Int :=
  match g with
  | [] => none
  | c :: cs =>
    if c = '-' then (parseNatWhole cs).map (fun n => -(n : Int))
    else (parseNatWhole (c :: cs)).map (fun n => (n : Int))

def splitOnComma : List Char → List (List Char)
  | [] => [[]]
  | c :: rest =>
    if c = ',' then [] :: splitOnComma rest
    else (c :: (splitOnComma rest).headI) :: (splitOnComma rest).tail

def parseGroups : List (List Char) → Option (List Int)
  | [] => some []
  | g :: gs =>
    match parseIntWhole g, parseGroups gs with
    | some n, some ns => some (n :: ns)
    | _, _ => none

/-- JSON.parse of a string expected to hold an array of integers. -/
def parseIntList (s : String) : Option (List Int) :=
  match s.data with
  | [] => none
  | c :: rest =>
    if c = '[' ∧ rest.getLast? = some ']' then
      if rest.dropLast = [] then some []
      else parseGroups (splitOnComma rest.dropLast)
    else none

/-- Observable effects of a handler, recorded in program order. -/
inductive Ev where
  | setFavoritesState (l : List Int)
  | storageSetItem (key val : String)
  | storageRemoveItem (key : String)
  | storageGetItem (key : String)
  | httpGet (url : String)
  | httpPost (url name email : String)
  | alert (title msg : String)
  | confirmPrompt (title msg : String)
  | log (msg : String)
deriving DecidableEq, Repr

def isAlertEv : Ev → Bool
  | .alert _ _ => true
  | _ => false

def isPostEv : Ev → Bool
  | .httpPost _ _ _ => true
  | _ => false

def isGetItemEv : Ev → Bool
  | .storageGetItem _ => true
  | _ => false

/-- The new favorites list computed inside toggleFavorite: remove the id
(by value equality, every occurrence) when present, append it otherwise. -/
def toggleFavPure (userId : Int) (favorites : List Int) : List Int :=
  if favorites.contains userId then favorites.filter (fun v => v != userId)
  else favorites ++ [userId]

/-- toggleFavorite: the state update is committed first, then the
serialized list is written to storage; a write failure (saveOk = false)
is only logged in the catch block. -/
def toggleFavorite (userId : Int) (st : AppState) (store : Storage) (saveOk : Bool) :
    AppState × Storage × List Ev :=
  let newFavorites := toggleFavPure userId st.favorites
  let payload := stringifyIntList newFavorites
  if saveOk then
    ({ st with favorites := newFavorites }, store.setItem FAVORITES_KEY payload,
      [Ev.setFavoritesState newFavorites, Ev.storageSetItem FAVORITES_KEY payload])
  else
    ({ st with favorites := newFavorites }, store,
      [Ev.setFavoritesState newFavorites, Ev.storageSetItem FAVORITES_KEY payload,
        Ev.log "Erreur de sauvegarde"])

/-- Favorites after a sequence of toggleFavorite calls, each acting on the
state left by the previous one. -/
def applyToggles (start : List Int) (ops : List Int) : List Int :=
  ops.foldl (fun favs i => toggleFavPure i favs) start

/-- loadData: GET the users, then read and parse stored favorites; any
failure in the try block reaches the catch (alert), and the finally block
always clears isLoading.  A GET failure aborts before the storage read. -/
def loadData (st : AppState) (store : Storage) (fetchResult : Except Unit (List User)) :
    AppState × List Ev :=
  match fetchResult with
  | .error _ =>
    ({ st with isLoading := false },
      [Ev.httpGet usersUrl, Ev.alert "Erreur" "Impossible de charger les données",
        Ev.log "load error"])
  | .ok data =>
    match store.getItem FAVORITES_KEY with
    | none =>
      ({ st with users := data, isLoading := false },
        [Ev.httpGet usersUrl, Ev.storageGetItem FAVORITES_KEY])
    | some raw =>
      match parseIntList raw with
      | some favs =>
        ({ st with users := data, favorites := favs, isLoading := false },
          [Ev.httpGet usersUrl, Ev.storageGetItem FAVORITES_KEY,
            Ev.setFavoritesState favs])
      | none =>
        ({ st with users := data, isLoading := false },
          [Ev.httpGet usersUrl, Ev.storageGetItem FAVORITES_KEY,
            Ev.alert "Erreur" "Impossible de charger les données",
            Ev.log "load error"])

/-- clearAllFavorites: shows the two-choice prompt; the destructive button
runs an async callback that awaits removeItem, resets favorites and shows
the success alert.  The try/catch wraps only the synchronous Alert.alert
call, so a rejection inside the async onPress callback is never caught:
on a removeItem failure nothing after the await runs and no alert at all
is raised (the "Impossible d effacer les favoris" catch is unreachable). -/
def clearAllFavorites (st : AppState) (store : Storage) (confirmed : Bool) (removeOk : Bool) :
    AppState × Storage × List Ev :=
  if confirmed then
    if removeOk then
      ({ st with favorites := [] }, store.removeItem FAVORITES_KEY,
        [Ev.confirmPrompt "Confirmation" "Voulez-vous vraiment effacer tous les favoris ?",
          Ev.storageRemoveItem FAVORITES_KEY, Ev.setFavoritesState [],
          Ev.alert "Succès" "Tous les favoris ont été effacés"])
    else
      (st, store,
        [Ev.confirmPrompt "Confirmation" "Voulez-vous vraiment effacer tous les favoris ?",
          Ev.storageRemoveItem FAVORITES_KEY])
  else
    (st, store,
      [Ev.confirmPrompt "Confirmation" "Voulez-vous vraiment effacer tous les favoris ?"])

/-- The whitespace trim applied by addUser to both form fields
(JS String.prototype.trim: drop whitespace from both ends). -/
def trimStr (s : String) : String :=
  String.mk
    (((s.data.dropWhile fun c => c.isWhitespace).reverse.dropWhile
      fun c => c.isWhitespace).reverse)

/-- Modelled from the spec: the remote create endpoint (not part of this
repository) echoes the submitted name and email back in the created record
together with a server-assigned id. -/
def createUserResponse (name email : String) (assignedId : Int) : User :=
  ⟨assignedId, name, email⟩

/-- addUser: validates the two trimmed fields; on validation failure it
alerts and returns before the POST.  On a successful POST the returned
record is prepended to users and both form fields are cleared. -/
def addUser (st : AppState) (postResult : Except Unit User) : AppState × List Ev :=
  if trimStr st.newUserName = "" ∨ trimStr st.newUserEmail = "" then
    (st, [Ev.alert "Erreur" "Veuillez remplir tous les champs"])
  else
    match postResult with
    | .ok newUser =>
      ({ st with users := newUser :: st.users, newUserName := "", newUserEmail := "" },
        [Ev.httpPost usersUrl st.newUserName st.newUserEmail,
          Ev.alert "Succès"
            ("Utilisateur " ++ newUser.name ++ " ajouté avec l\x27ID " ++ toString newUser.id)])
    | .error _ =>
      (st, [Ev.httpPost usersUrl st.newUserName st.newUserEmail,
        Ev.log "Erreur lors de l\x27ajout",
        Ev.alert "Erreur" "Impossible d\x27ajouter l\x27utilisateur"])

/-- getFilteredUsers: filter by favorite membership when the flag is set,
otherwise the users list itself. -/
def getFilteredUsers (st : AppState) : List User :=
  if st.showOnlyFavorites then st.users.filter (fun u => st.favorites.contains u.id)
  else st.users

/-- The storage write performed by toggleFavorite (AsyncStorage.setItem of
the serialized list under the fixed key). -/
def saveFavorites (store : Storage) (ids : List Int) : Storage :=
  store.setItem FAVORITES_KEY (stringifyIntList ids)

/-- The storage read performed by loadData (AsyncStorage.getItem of the
fixed key followed by JSON.parse); none when the key is absent or the
content does not parse. -/
def loadFavorites (store : Storage) : Option (List Int) :=
  (store.getItem FAVORITES_KEY).bind parseIntList

/-- The storage deletion performed by the confirm branch of
clearAllFavorites. -/
def clearFavorites (store : Storage) : Storage :=
  store.removeItem FAVORITES_KEY

/-! ### Helper lemmas: the JSON integer-array encoding round-trips -/

theorem digitChar_val : ∀ d : Nat, d < 10 → (Nat.digitChar d).toNat - 48 = d := by decide

theorem digitChar_isDigit : ∀ d : Nat, d < 10 → (Nat.digitChar d).isDigit = true := by decide

theorem natChars_small {n : Nat} (h : n < 10) : natChars n = [Nat.digitChar n] := by
  rw [natChars]; simp [h]

theorem natChars_big {n : Nat} (h : ¬ n < 10) :
    natChars n = natChars (n / 10) ++ [Nat.digitChar (n % 10)] := by
  rw [natChars]; simp [h]

theorem natChars_ne_nil (n : Nat) : natChars n ≠ [] := by
  by_cases h : n < 10
  · rw [natChars_small h]; simp
  · rw [natChars_big h]; simp

theorem natChars_digits (n : Nat) : ∀ c ∈ natChars n, c.isDigit = true := by
  induction n using Nat.strong_induction_on with
  | _ n ih =>
    by_cases h : n < 10
    · rw [natChars_small h]
      intro c hc
      simp at hc
      subst hc
      exact digitChar_isDigit n h
    · rw [natChars_big h]
      intro c hc
      rcases List.mem_append.1 hc with h1 | h1
      · exact ih _ (Nat.div_lt_self (by omega) (by omega)) c h1
      · simp at h1
        subst h1
        exact digitChar_isDigit _ (Nat.mod_lt _ (by omega))

theorem natChars_foldl (n : Nat) :
    ∀ acc : Nat, (natChars n).foldl (fun a c => 10 * a + (c.toNat - 48)) acc
      = acc * 10 ^ (natChars n).length + n := by
  induction n using Nat.strong_induction_on with
  | _ n ih =>
    intro acc
    by_cases h : n < 10
    · rw [natChars_small h]
      simp [List.foldl, digitChar_val n h]
      ring
    · rw [natChars_big h]
      rw [List.foldl_append]
      rw [ih _ (Nat.div_lt_self (by omega) (by omega)) acc]
      simp [List.foldl, digitChar_val _ (Nat.mod_lt _ (by omega))]
      rw [pow_succ]
      calc 10 * (acc * 10 ^ (natChars (n / 10)).length + n / 10) + n % 10
          = acc * (10 ^ (natChars (n / 10)).length * 10) + (10 * (n / 10) + n % 10) := by ring
        _ = acc * (10 ^ (natChars (n / 10)).length * 10) + n := by rw [Nat.div_add_mod]

theorem parse_natChars (n : Nat) : parseNatWhole (natChars n) = some n := by
  unfold parseNatWhole
  rw [if_pos]
  · rw [natChars_foldl n 0]
    simp
  · exact ⟨natChars_ne_nil n, List.all_eq_true.2 (natChars_digits n)⟩

theorem isDigit_ne_minus {c : Char} (h : c.isDigit = true) : c ≠ '-' := by
  intro hc
  subst hc
  simp [Char.isDigit] at h

theorem parseIntWhole_natChars (m : Nat) : parseIntWhole (natChars m) = some (m : Int) := by
  cases hnc : natChars m with
  | nil => exact absurd hnc (natChars_ne_nil m)
  | cons c cs =>
    have hcd : c.isDigit = true := natChars_digits m c (by rw [hnc]; simp)
    simp only [parseIntWhole]
    rw [if_neg (isDigit_ne_minus hcd)]
    rw [← hnc, parse_natChars]
    simp

theorem parse_intChars (n : Int) : parseIntWhole (intChars n) = some n := by
  unfold intChars
  by_cases h : n < 0
  · rw [if_pos h]
    simp only [parseIntWhole, if_true]
    rw [parse_natChars]
    have habs : ((n.natAbs : Nat) : Int) = -n := by omega
    simp [habs]
  · rw [if_neg h]
    rw [parseIntWhole_natChars]
    congr 1
    omega

theorem intChars_no_comma (n : Int) : ∀ c ∈ intChars n, c ≠ ',' := by
  unfold intChars
  intro c hc
  have hdig : ∀ m : Nat, ∀ c ∈ natChars m, c ≠ ',' := by
    intro m c hm hcomma
    have := natChars_digits m c hm
    subst hcomma
    simp [Char.isDigit] at this
  by_cases h : n < 0
  · rw [if_pos h] at hc
    rcases List.mem_cons.1 hc with h1 | h1
    · subst h1; decide
    · exact hdig _ c h1
  · rw [if_neg h] at hc
    exact hdig _ c hc

theorem intChars_ne_nil (n : Int) : intChars n ≠ [] := by
  unfold intChars
  by_cases h : n < 0
  · rw [if_pos h]; simp
  · rw [if_neg h]; exact natChars_ne_nil _

theorem splitOnComma_no_comma {g : List Char} (h : ∀ c ∈ g, c ≠ ',') :
    splitOnComma g = [g] := by
  induction g with
  | nil => rfl
  | cons c rest ih =>
    have hc : c ≠ ',' := h c (by simp)
    rw [splitOnComma]
    rw [if_neg hc]
    rw [ih (fun x hx => h x (by simp [hx]))]
    simp

theorem splitOnComma_append {g : List Char} (t : List Char) (h : ∀ c ∈ g, c ≠ ',') :
    splitOnComma (g ++ ',' :: t) = g :: splitOnComma t := by
  induction g with
  | nil =>
    rw [List.nil_append, splitOnComma]
    simp
  | cons c rest ih =>
    have hc : c ≠ ',' := h c (by simp)
    rw [List.cons_append, splitOnComma]
    rw [if_neg hc]
    rw [ih (fun x hx => h x (by simp [hx]))]
    simp

theorem split_intercalate : ∀ gs : List (List Char), gs ≠ [] →
    (∀ g ∈ gs, ∀ c ∈ g, c ≠ ',') → splitOnComma (intercalateComma gs) = gs := by
  intro gs
  induction gs with
  | nil => intro h; exact absurd rfl h
  | cons g gs ih =>
    intro _ hnc
    cases gs with
    | nil =>
      show splitOnComma (intercalateComma [g]) = [g]
      rw [intercalateComma]
      exact splitOnComma_no_comma (hnc g (by simp))
    | cons g2 gs2 =>
      show splitOnComma (intercalateComma (g :: g2 :: gs2)) = g :: g2 :: gs2
      rw [intercalateComma]
      rw [splitOnComma_append _ (hnc g (by simp))]
      rw [ih (by simp) (fun x hx => hnc x (by simp [hx]))]
      simp

theorem parseGroups_map : ∀ l : List Int, parseGroups (l.map intChars) = some l := by
  intro l
  induction l with
  | nil => rfl
  | cons x xs ih =>
    rw [List.map_cons, parseGroups]
    rw [parse_intChars, ih]

theorem intercalateComma_map_ne_nil (x : Int) (xs : List Int) :
    intercalateComma ((x :: xs).map intChars) ≠ [] := by
  cases xs with
  | nil =>
    simp [intercalateComma]
    exact intChars_ne_nil x
  | cons y ys =>
    simp [intercalateComma]

theorem parse_stringify (l : List Int) : parseIntList (stringifyIntList l) = some l := by
  show parseIntList (String.mk ('[' :: (intercalateComma (l.map intChars) ++ [']']))) = some l
  rw [parseIntList]
  simp only [String.data]
  rw [if_pos ⟨trivial, List.getLast?_concat _⟩]
  rw [List.dropLast_concat]
  cases l with
  | nil =>
    simp [intercalateComma]
  | cons x xs =>
    rw [if_neg (intercalateComma_map_ne_nil x xs)]
    rw [split_intercalate _ (by simp) ?_]
    · exact parseGroups_map (x :: xs)
    · intro g hg c hc
      rcases List.mem_map.1 hg with ⟨n, _, hn⟩
      subst hn
      exact intChars_no_comma n c hc

/-! ### Helper lemmas: the key-value store -/

theorem Storage.getItem_setItem (s : Storage) (k v : String) :
    (s.setItem k v).getItem k = some v := by
  simp [Storage.setItem, Storage.getItem, List.find?]

theorem Storage.getItem_removeItem (s : Storage) (k : String) :
    (s.removeItem k).getItem k = none := by
  have h : List.find? (fun e => e.1 == k) (s.entries.filter (fun e => !(e.1 == k))) = none := by
    rw [List.find?_eq_none]
    intro x hx
    rcases List.mem_filter.1 hx with ⟨_, hkeep⟩
    simp at hkeep
    simp [hkeep]
  simp [Storage.removeItem, Storage.getItem, h]

/-! ### Helper lemmas: toggleFavPure -/

theorem mem_toggleFavPure (i a : Int) (l : List Int) :
    a ∈ toggleFavPure i l ↔ (if a = i then i ∉ l else a ∈ l) := by
  unfold toggleFavPure
  by_cases hc : l.contains i
  · rw [if_pos hc]
    have hi : i ∈ l := by simpa using hc
    by_cases hai : a = i
    · subst hai
      simp [List.mem_filter, hi]
    · simp [List.mem_filter, hai]
  · rw [if_neg hc]
    have hi : i ∉ l := by simpa using hc
    by_cases hai : a = i
    · subst hai
      simp [hi]
    · simp [hai]

theorem nodup_toggleFavPure (i : Int) {l : List Int} (h : l.Nodup) :
    (toggleFavPure i l).Nodup := by
  unfold toggleFavPure
  by_cases hc : l.contains i
  · rw [if_pos hc]
    exact h.filter _
  · rw [if_neg hc]
    have hi : i ∉ l := by simpa using hc
    simp [List.nodup_append, h, hi]

theorem applyToggles_aux : ∀ (ops : List Int) (start : List Int), start.Nodup →
    (applyToggles start ops).Nodup ∧
    (∀ a : Int, a ∈ applyToggles start ops ↔ Xor' (Odd (List.count a ops)) (a ∈ start)) := by
  intro ops
  induction ops with
  | nil =>
    intro start h
    refine ⟨h, ?_⟩
    intro a
    simp [applyToggles, Xor']
  | cons i ops ih =>
    intro start h
    have hstep : applyToggles start (i :: ops) = applyToggles (toggleFavPure i start) ops := rfl
    obtain ⟨hn, hm⟩ := ih (toggleFavPure i start) (nodup_toggleFavPure i h)
    rw [hstep]
    refine ⟨hn, ?_⟩
    intro a
    rw [hm a]
    rw [mem_toggleFavPure]
    by_cases hai : a = i
    · subst hai
      rw [if_pos rfl]
      have hcnt : List.count a (a :: ops) = List.count a ops + 1 := by
        simp [List.count_cons]
      rw [hcnt, Nat.odd_add_one]
      simp only [Xor']
      tauto
    · rw [if_neg hai]
      have hia : (i == a) = false := by
        simp [Ne.symm hai]
      simp [List.count_cons, hia]

/-- C1: starting from a duplicate-free favorites list, any finite sequence
of toggleFavorite calls yields a duplicate-free list whose members are
exactly the symmetric difference of the start set and the set of ids
toggled an odd number of times; in particular [1,3] --toggle 3--> [1]
--toggle 2--> [1,2]. -/
theorem toggle_sequence_symmetric_difference (start : List Int) (h : start.Nodup)
    (ops : List Int) :
    (applyToggles start ops).Nodup ∧
    (∀ a : Int, a ∈ applyToggles start ops ↔ Xor' (Odd (List.count a ops)) (a ∈ start)) ∧
    toggleFavPure 3 [1, 3] = [1] ∧ toggleFavPure 2 (toggleFavPure 3 [1, 3]) = [1, 2] := by
  obtain ⟨h1, h2⟩ := applyToggles_aux ops start h
  exact ⟨h1, h2, by decide, by decide⟩

theorem toggle_sequence_symmetric_difference_witness :
    ([1, 3] : List Int).Nodup ∧
    ((applyToggles [1, 3] [3, 2]).Nodup ∧
      (∀ a : Int, a ∈ applyToggles [1, 3] [3, 2] ↔
        Xor' (Odd (List.count a [3, 2])) (a ∈ ([1, 3] : List Int))) ∧
      toggleFavPure 3 [1, 3] = [1] ∧ toggleFavPure 2 (toggleFavPure 3 [1, 3]) = [1, 2]) :=
  ⟨by decide, toggle_sequence_symmetric_difference [1, 3] (by decide) [3, 2]⟩

/-! ### Example states used by witnesses -/

def exUserA : User := ⟨1, "Leanne Graham", "leanne@x.com"⟩

def exUserB : User := ⟨2, "Ervin Howell", "ervin@x.com"⟩

def exStore : Storage := ⟨[]⟩

def exStateBlankName : AppState := ⟨[exUserA], [1], false, false, "", "x@x.com"⟩

def exStateJane : AppState := ⟨[exUserA], [1], false, false, "Jane", "jane@x.com"⟩

def exStateDup : AppState := ⟨[exUserA], [1, 2, 2, 3], false, false, "", ""⟩

/-- C2: with showOnlyFavorites set, getFilteredUsers is exactly the
order-preserving subsequence of users whose id is a favorite; with the
flag unset it is the users list unchanged. -/
theorem getFilteredUsers_spec (users : List User) (favs : List Int)
    (ld : Bool) (nm em : String) :
    getFilteredUsers ⟨users, favs, ld, true, nm, em⟩ =
      users.filter (fun u => decide (u.id ∈ favs)) ∧
    (getFilteredUsers ⟨users, favs, ld, true, nm, em⟩).Sublist users ∧
    (∀ u : User, u ∈ getFilteredUsers ⟨users, favs, ld, true, nm, em⟩ ↔
      u ∈ users ∧ u.id ∈ favs) ∧
    getFilteredUsers ⟨users, favs, ld, false, nm, em⟩ = users := by
  have hfilt : getFilteredUsers ⟨users, favs, ld, true, nm, em⟩ =
      users.filter (fun u => favs.contains u.id) := rfl
  have heq : (fun u : User => favs.contains u.id) =
      (fun u : User => decide (u.id ∈ favs)) := by
    funext u
    simp [List.contains_iff_exists_mem_beq]
  refine ⟨by rw [hfilt, heq], ?_, ?_, rfl⟩
  · rw [hfilt]
    exact List.filter_sublist _
  · intro u
    rw [hfilt, heq]
    simp [List.mem_filter]

/-- C3: addUser with a blank (after trimming) name or email field alerts,
performs no network call, and leaves the whole state unchanged. -/
theorem addUser_validation_aborts (st : AppState) (r : Except Unit User)
    (h : trimStr st.newUserName = "" ∨ trimStr st.newUserEmail = "") :
    (addUser st r).1 = st ∧
    (addUser st r).2 = [Ev.alert "Erreur" "Veuillez remplir tous les champs"] ∧
    ((addUser st r).2).all (fun e => !(isPostEv e)) = true := by
  unfold addUser
  rw [if_pos h]
  exact ⟨rfl, rfl, rfl⟩

theorem addUser_validation_aborts_witness :
    (trimStr exStateBlankName.newUserName = "" ∨
      trimStr exStateBlankName.newUserEmail = "") ∧
    ((addUser exStateBlankName (Except.error ())).1 = exStateBlankName ∧
      (addUser exStateBlankName (Except.error ())).2 =
        [Ev.alert "Erreur" "Veuillez remplir tous les champs"] ∧
      ((addUser exStateBlankName (Except.error ())).2).all
        (fun e => !(isPostEv e)) = true) :=
  ⟨Or.inl (by decide), addUser_validation_aborts _ _ (Or.inl (by decide))⟩

/-- C4: addUser with both trimmed fields nonblank, on POST success,
prepends the returned record (assigned id, submitted name and email) to
users and clears both form fields. -/
theorem addUser_success_prepends (st : AppState) (assignedId : Int)
    (h : ¬(trimStr st.newUserName = "" ∨ trimStr st.newUserEmail = "")) :
    (addUser st
        (Except.ok (createUserResponse st.newUserName st.newUserEmail assignedId))).1 =
      { st with
          users := createUserResponse st.newUserName st.newUserEmail assignedId :: st.users,
          newUserName := "", newUserEmail := "" } ∧
    (createUserResponse st.newUserName st.newUserEmail assignedId).id = assignedId ∧
    (createUserResponse st.newUserName st.newUserEmail assignedId).name = st.newUserName ∧
    (createUserResponse st.newUserName st.newUserEmail assignedId).email = st.newUserEmail := by
  unfold addUser
  rw [if_neg h]
  exact ⟨rfl, rfl, rfl, rfl⟩

theorem addUser_success_prepends_witness :
    ¬(trimStr exStateJane.newUserName = "" ∨ trimStr exStateJane.newUserEmail = "") ∧
    ((addUser exStateJane
        (Except.ok (createUserResponse exStateJane.newUserName exStateJane.newUserEmail 11))).1 =
      { exStateJane with
          users := createUserResponse exStateJane.newUserName exStateJane.newUserEmail 11 ::
            exStateJane.users,
          newUserName := "", newUserEmail := "" } ∧
      (createUserResponse exStateJane.newUserName exStateJane.newUserEmail 11).id = 11 ∧
      (createUserResponse exStateJane.newUserName exStateJane.newUserEmail 11).name =
        exStateJane.newUserName ∧
      (createUserResponse exStateJane.newUserName exStateJane.newUserEmail 11).email =
        exStateJane.newUserEmail) :=
  ⟨by decide, addUser_success_prepends exStateJane 11 (by decide)⟩

/-- C5: toggleFavorite commits the new favorites list to state as its
first effect and only then attempts the storage write; on a write failure
the in-memory list keeps the new value, the store is unchanged, no alert
is raised and only a diagnostic log is emitted. -/
theorem toggleFavorite_commit_first_no_rollback (userId : Int) (st : AppState)
    (store : Storage) (saveOk : Bool) :
    ((toggleFavorite userId st store saveOk).1).favorites =
      toggleFavPure userId st.favorites ∧
    ((toggleFavorite userId st store saveOk).2.2).head? =
      some (Ev.setFavoritesState (toggleFavPure userId st.favorites)) ∧
    Ev.storageSetItem FAVORITES_KEY (stringifyIntList (toggleFavPure userId st.favorites)) ∈
      ((toggleFavorite userId st store saveOk).2.2).tail ∧
    ((toggleFavorite userId st store false).1).favorites =
      toggleFavPure userId st.favorites ∧
    (toggleFavorite userId st store false).2.1 = store ∧
    ((toggleFavorite userId st store false).2.2).all (fun e => !(isAlertEv e)) = true ∧
    Ev.log "Erreur de sauvegarde" ∈ (toggleFavorite userId st store false).2.2 := by
  unfold toggleFavorite
  cases saveOk <;> exact ⟨rfl, rfl, by simp, rfl, rfl, rfl, by simp⟩

/-- C6: when the initial GET fails, loadData alerts, never reads the
stored favorites (favorites and users keep their prior values) and still
ends with isLoading = false. -/
theorem loadData_fetch_failure (st : AppState) (store : Storage) :
    ((loadData st store (Except.error ())).1).isLoading = false ∧
    ((loadData st store (Except.error ())).1).favorites = st.favorites ∧
    ((loadData st store (Except.error ())).1).users = st.users ∧
    Ev.alert "Erreur" "Impossible de charger les données" ∈
      (loadData st store (Except.error ())).2 ∧
    ((loadData st store (Except.error ())).2).all (fun e => !(isGetItemEv e)) = true := by
  refine ⟨rfl, rfl, rfl, ?_, rfl⟩
  simp [loadData]

/-- C7 (behavior at the failing input): when the destructive choice is
confirmed and the storage deletion fails, the rejection escapes the async
onPress callback uncaught, so no alert of any kind is raised and neither
the state nor the store changes; the confirm-success and cancel branches
behave as specified. -/
theorem clearAllFavorites_failure_unreported (st : AppState) (store : Storage) :
    (clearAllFavorites st store true false).1 = st ∧
    (clearAllFavorites st store true false).2.1 = store ∧
    ((clearAllFavorites st store true false).2.2).all (fun e => !(isAlertEv e)) = true ∧
    Ev.storageRemoveItem FAVORITES_KEY ∈ (clearAllFavorites st store true false).2.2 ∧
    ((clearAllFavorites st store true true).1).favorites = [] ∧
    (clearAllFavorites st store true true).2.1 = store.removeItem FAVORITES_KEY ∧
    (clearAllFavorites st store false false).1 = st ∧
    (clearAllFavorites st store false false).2.1 = store := by
  refine ⟨rfl, rfl, rfl, ?_, rfl, rfl, rfl, rfl⟩
  simp [clearAllFavorites]

/-- C8: writing the JSON-encoded favorites under the fixed key and then
reading and parsing it back returns exactly the saved list. -/
theorem save_then_load_roundtrip (store : Storage) (ids : List Int) :
    loadFavorites (saveFavorites store ids) = some ids := by
  unfold loadFavorites saveFavorites
  rw [Storage.getItem_setItem]
  simp [parse_stringify]

/-- C9: deleting the favorites key makes the subsequent read find nothing;
loadData then leaves the (empty) favorites untouched, so the favorites
list of the consumer stays empty. -/
theorem clear_then_load_empty (store : Storage) (users0 : List User)
    (ld f : Bool) (nm em : String) (us : List User) :
    (clearFavorites store).getItem FAVORITES_KEY = none ∧
    loadFavorites (clearFavorites store) = none ∧
    ((loadData ⟨users0, [], ld, f, nm, em⟩ (clearFavorites store) (Except.ok us)).1).favorites
      = [] := by
  have hget := Storage.getItem_removeItem store FAVORITES_KEY
  refine ⟨hget, ?_, ?_⟩
  · unfold loadFavorites clearFavorites
    rw [hget]
    rfl
  · unfold loadData clearFavorites
    rw [hget]

/-- C10: toggleFavorite changes no state cell but favorites; within
favorites only membership of the toggled id changes, and the remove branch
removes every occurrence of the id. -/
theorem toggleFavorite_frame (userId : Int) (st : AppState) (store : Storage)
    (saveOk : Bool) :
    ((toggleFavorite userId st store saveOk).1).users = st.users ∧
    ((toggleFavorite userId st store saveOk).1).isLoading = st.isLoading ∧
    ((toggleFavorite userId st store saveOk).1).showOnlyFavorites = st.showOnlyFavorites ∧
    ((toggleFavorite userId st store saveOk).1).newUserName = st.newUserName ∧
    ((toggleFavorite userId st store saveOk).1).newUserEmail = st.newUserEmail ∧
    (∀ b : Int, b ≠ userId →
      (b ∈ ((toggleFavorite userId st store saveOk).1).favorites ↔ b ∈ st.favorites)) ∧
    (userId ∈ st.favorites →
      ((toggleFavorite userId st store saveOk).1).favorites =
        st.favorites.filter (fun v => v != userId) ∧
      List.count userId ((toggleFavorite userId st store saveOk).1).favorites = 0) ∧
    (userId ∉ st.favorites →
      userId ∈ ((toggleFavorite userId st store saveOk).1).favorites) := by
  have hst : (toggleFavorite userId st store saveOk).1 =
      { st with favorites := toggleFavPure userId st.favorites } := by
    unfold toggleFavorite
    cases saveOk <;> rfl
  rw [hst]
  refine ⟨rfl, rfl, rfl, rfl, rfl, ?_, ?_, ?_⟩
  · intro b hb
    show b ∈ toggleFavPure userId st.favorites ↔ b ∈ st.favorites
    rw [mem_toggleFavPure]
    rw [if_neg hb]
  · intro hmem
    have hc : st.favorites.contains userId := by simpa using hmem
    constructor
    · show toggleFavPure userId st.favorites = _
      unfold toggleFavPure
      rw [if_pos hc]
    · show List.count userId (toggleFavPure userId st.favorites) = 0
      rw [List.count_eq_zero]
      rw [mem_toggleFavPure]
      simp [hmem]
  · intro hmem
    show userId ∈ toggleFavPure userId st.favorites
    rw [mem_toggleFavPure]
    simp [hmem]

theorem toggleFavorite_frame_witness :
    ((toggleFavorite 2 exStateDup exStore true).1).users = exStateDup.users ∧
    ((toggleFavorite 2 exStateDup exStore true).1).isLoading = exStateDup.isLoading ∧
    ((toggleFavorite 2 exStateDup exStore true).1).showOnlyFavorites =
      exStateDup.showOnlyFavorites ∧
    ((toggleFavorite 2 exStateDup exStore true).1).newUserName = exStateDup.newUserName ∧
    ((toggleFavorite 2 exStateDup exStore true).1).newUserEmail = exStateDup.newUserEmail ∧
    (∀ b : Int, b ≠ 2 →
      (b ∈ ((toggleFavorite 2 exStateDup exStore true).1).favorites ↔
        b ∈ exStateDup.favorites)) ∧
    ((2 : Int) ∈ exStateDup.favorites →
      ((toggleFavorite 2 exStateDup exStore true).1).favorites =
        exStateDup.favorites.filter (fun v => v != 2) ∧
      List.count 2 ((toggleFavorite 2 exStateDup exStore true).1).favorites = 0) ∧
    ((2 : Int) ∉ exStateDup.favorites →
      (2 : Int) ∈ ((toggleFavorite 2 exStateDup exStore true).1).favorites) :=
  toggleFavorite_frame 2 exStateDup exStore true
